import Mathlib

/-
Verification of the node-usbmux client library (src/lib/usbmux.ts).

The development shallowly embeds the protocol codec, the listener's message
handler, the tunnel connector's message handler, the relay's per-connection
handler and the device finder's timeout handler.  Byte buffers are modelled
as `List Nat` (each entry a byte value), JS numbers as `Nat`, and the opaque
plist codec is left abstract: the parser hands the accumulated payload bytes
to the completion callback (the source applies `plist.parse` to them, which
is an external collaborator treated as an opaque codec by the specification).
-/

namespace Usbmux

/-- Little-endian byte encoding of a 32-bit value, as produced by
`Buffer.writeUInt32LE` in `pack` (src/lib/usbmux.ts lines 118-123). -/
def uint32le (n : Nat) : List Nat :=
  [n % 256, n / 256 % 256, n / 2 ^ 16 % 256, n / 2 ^ 24 % 256]

/-- The 16-byte frame header written by `pack` (src/lib/usbmux.ts lines
111-123): length = payload length + 16, version = 1, request = 8, tag = 1,
each as UInt32LE. -/
def packHeader (payloadLen : Nat) : List Nat :=
  uint32le (payloadLen + 16) ++ uint32le 1 ++ uint32le 8 ++ uint32le 1

/-- Frame builder `pack` (src/lib/usbmux.ts lines 107-126): header followed
by the serialized payload bytes.  The `payload` argument stands for the
bytes produced by the opaque plist codec from the request object. -/
def pack (payload : List Nat) : List Nat :=
  packHeader payload.length ++ payload

/-- Model of `Buffer.readUInt32LE(0)`: reads the first four bytes as a
little-endian 32-bit value; on a buffer shorter than 4 bytes Node throws
ERR_OUT_OF_RANGE, modelled as `none`. -/
def readUInt32LE : List Nat → Option Nat
  | b0 :: b1 :: b2 :: b3 :: _ => some (b0 + b1 * 256 + b2 * 2 ^ 16 + b3 * 2 ^ 24)
  | _ => none

/-- Persistent state of the parser closure created by `makeParser`
(src/lib/usbmux.ts line 173): the remaining body length `len` and the
accumulated message text `msg`.  The JS variables start out `undefined`,
which tests the same as `0` / empty under `if (!len)`, so the initial
state is `⟨0, []⟩`. -/
structure ParserState where
  len : Nat
  msg : List Nat
deriving DecidableEq

/-- One invocation of the closure `parse` returned by `makeParser`
(src/lib/usbmux.ts lines 175-201), fuel-indexed to make the recursion on
leftover data structural.  Every recursive call strictly shrinks `data`,
so any fuel above `data.length` behaves identically; the out-of-fuel
result `none` is unreachable from `parse` below.  `none` also models a
thrown exception (readUInt32LE out of range).  The result is the updated
closure state together with the list of payloads handed to the
`onComplete` callback, in call order. -/
def parseFuel : Nat → ParserState → List Nat → Option (ParserState × List (List Nat))
  | 0, _, _ => none
  | fuel + 1, st, data =>
    if st.len = 0 then
      match readUInt32LE data with
      | none => none
      | some total =>
        let len0 := total - 16
        let rest0 := data.drop 16
        if rest0 = [] then some (⟨len0, []⟩, [])
        else
          let body := rest0.take len0
          let len1 := len0 - body.length
          let outs : List (List Nat) := if len1 = 0 then [body] else []
          let rest1 := rest0.drop body.length
          if rest1 = [] then some (⟨len1, body⟩, outs)
          else
            match parseFuel fuel ⟨len1, body⟩ rest1 with
            | none => none
            | some (st2, outs2) => some (st2, outs ++ outs2)
    else
      let body := data.take st.len
      let msg1 := st.msg ++ body
      let len1 := st.len - body.length
      let outs : List (List Nat) := if len1 = 0 then [msg1] else []
      let rest1 := data.drop body.length
      if rest1 = [] then some (⟨len1, msg1⟩, outs)
      else
        match parseFuel fuel ⟨len1, msg1⟩ rest1 with
        | none => none
        | some (st2, outs2) => some (st2, outs ++ outs2)

/-- One `data` event delivered to the parser closure: `data.length + 1`
units of fuel are always sufficient because each recursive step consumes
at least one byte of `data`. -/
def parse (st : ParserState) (data : List Nat) : Option (ParserState × List (List Nat)) :=
  parseFuel (data.length + 1) st data

/-- Feeding a sequence of data events (chunks) to one parser closure,
threading the closure state and concatenating the callback payloads. -/
def feed (st : ParserState) : List (List Nat) → Option (ParserState × List (List Nat))
  | [] => some (st, [])
  | c :: cs =>
    match parse st c with
    | none => none
    | some (st1, outs1) =>
      match feed st1 cs with
      | none => none
      | some (st2, outs2) => some (st2, outs1 ++ outs2)

/-- Splitting a buffer into 1-byte data events. -/
def oneByteChunks (data : List Nat) : List (List Nat) :=
  data.map (fun b => [b])

/-- Endianness swap of a 16-bit value, `byteSwap16` (src/lib/usbmux.ts
lines 131-133).  For values below 2^31 the JS expression
`((val & 0xff) << 8) | ((val >> 8) & 0xff)` equals
`val % 256 * 256 + val / 256 % 256` because the two OR operands occupy
disjoint bit ranges. -/
def byteSwap16 (val : Nat) : Nat :=
  val % 256 * 256 + val / 256 % 256

/-- The request object built by `protocol.connect` (src/lib/usbmux.ts
lines 149-157) before it is handed to the opaque plist codec and `pack`. -/
structure ConnectRequest where
  MessageType : String
  ClientVersionString : String
  ProgName : String
  DeviceID : Nat
  PortNumber : Nat
deriving DecidableEq

/-- Payload of the Connect frame: the port travels through `byteSwap16`
(src/lib/usbmux.ts line 155). -/
def connectRequest (deviceID port : Nat) : ConnectRequest :=
  { MessageType := "Connect"
    ClientVersionString := "node-usbmux"
    ProgName := "node-usbmux"
    DeviceID := deviceID
    PortNumber := byteSwap16 port }

/-- JS `x || d` on an optional numeric option: `undefined` and `0` are both
falsy, so both select the default (src/lib/usbmux.ts lines 366, 404, 502). -/
def jsOrDefault (t : Option Nat) (d : Nat) : Nat :=
  match t with
  | none => d
  | some v => if v = 0 then d else v

/-- Options record accepted by the Relay constructor and `findDevice`
(src/lib/usbmux.ts lines 338-341). -/
structure RelayOpts where
  timeout : Option Nat
  udid : Option String
deriving DecidableEq

/-- Timeout value the Relay constructor passes to `_startListener`
(src/lib/usbmux.ts line 366: `opts.timeout || 1000`). -/
def relayConstructorTimeout (opts : RelayOpts) : Nat :=
  jsOrDefault opts.timeout 1000

/-- Delay `_startListener` arms its `setTimeout` with (src/lib/usbmux.ts
line 404: `timeout || 1000`). -/
def startListenerDelay (timeout : Nat) : Nat :=
  if timeout = 0 then 1000 else timeout

/-- Delay of the Relay discovery watchdog: the constructor default is
applied first, then `_startListener` applies its own. -/
def relayWatchdogDelay (opts : RelayOpts) : Nat :=
  startListenerDelay (relayConstructorTimeout opts)

/-- Delay `findDevice` arms its timer with (src/lib/usbmux.ts line 502:
`opts.timeout || 1000`). -/
def findDeviceDelay (opts : RelayOpts) : Nat :=
  jsOrDefault opts.timeout 1000

/-- Device descriptor carried by Attached notifications and stored in the
registry (src/lib/usbmux.ts lines 19-25). -/
structure Device where
  ConnectionType : String
  DeviceID : Nat
  LocationID : Nat
  ProductID : Nat
  SerialNumber : String
deriving DecidableEq

/-- Inbound usbmuxd messages after plist decoding (src/lib/usbmux.ts lines
91-101). -/
inductive UsbMuxPlist where
  | Result (Number : Nat)
  | Attached (Number : Nat) (Properties : Device)
  | Detached (Number : Nat) (DeviceID : Nat)
deriving DecidableEq

/-- The `Number` field present on every message variant. -/
def UsbMuxPlist.number : UsbMuxPlist → Nat
  | .Result n => n
  | .Attached n _ => n
  | .Detached n _ => n

/-- Error value built by the `UsbmuxdError` constructor (src/lib/usbmux.ts
lines 222-237).  In JS the `number` property is assigned only when the code
is truthy, so it is an `Option`. -/
structure UsbmuxdError where
  message : String
  number : Option Nat
deriving DecidableEq

/-- Constructor body of `UsbmuxdError` (src/lib/usbmux.ts lines 225-236):
suffixes are appended in source order; `\x27` is the apostrophe character
appearing in the source messages. -/
def mkUsbmuxdError (message : String) (number : Nat) : UsbmuxdError :=
  let m1 := if number ≠ 0 then message ++ ", Err #" ++ toString number else message
  let m2 := if number = 2 then m1 ++ ": Device isn\x27t connected" else m1
  let m3 := if number = 3 then m2 ++ ": Port isn\x27t available or open" else m2
  let m4 := if number = 5 then m3 ++ ": Malformed request" else m3
  { message := m4, number := if number ≠ 0 then some number else none }

/-- Device registry: the process-wide `devices` object (src/lib/usbmux.ts
line 41), modelled as an association list in key insertion order, which is
the iteration order `Object.keys` reports for the (non-integer-like) UDID
string keys used here. -/
abbrev Registry := List (String × Device)

/-- Property lookup `devices[udid]`: first (and, with unique keys, only)
entry stored under the key. -/
def regLookup : Registry → String → Option Device
  | [], _ => none
  | (k, d) :: rest, u => if k = u then some d else regLookup rest u

/-- Property assignment `devices[key] = value` on a JS object: an existing
key keeps its position in insertion order and gets the new value; a new key
is appended at the end. -/
def insertOrReplace : Registry → String → Device → Registry
  | [], k, v => [(k, v)]
  | (k', v') :: rest, k, v =>
    if k' = k then (k, v) :: rest else (k', v') :: insertOrReplace rest k v

/-- Primitive effects performed by the Detached branch of the listener's
message handler while it walks the registry (src/lib/usbmux.ts lines
281-286): emitting the "detached" event for a matching entry, and deleting
that entry. -/
inductive MicroAction where
  | emitDetached (udid : String)
  | deleteEntry (udid : String)
deriving DecidableEq

/-- Detached branch of `onMsgComplete` (src/lib/usbmux.ts lines 279-287):
`Object.keys(devices).forEach` visits the snapshot of keys in insertion
order; for each entry whose `DeviceID` matches, it first emits "detached"
with the stored `SerialNumber` and then deletes the key.  Because keys are
unique, deleting one key never affects the later visits, so the loop is the
entrywise recursion below.  Returns the surviving registry and the ordered
trace of emit/delete actions. -/
def detachSweep (deviceID : Nat) : Registry → Registry × List MicroAction
  | [] => ([], [])
  | (k, d) :: rest =>
    let r := detachSweep deviceID rest
    if d.DeviceID = deviceID then
      (r.1, MicroAction.emitDetached d.SerialNumber :: MicroAction.deleteEntry k :: r.2)
    else ((k, d) :: r.1, r.2)

/-- Events observable on the listener socket. -/
inductive LEvent where
  | errorEv (e : UsbmuxdError)
  | attached (udid : String)
  | detached (udid : String)
deriving DecidableEq

/-- The "detached" events contained in a sweep trace, in trace order. -/
def detachedEvents (tr : List MicroAction) : List LEvent :=
  tr.filterMap fun a =>
    match a with
    | .emitDetached u => some (LEvent.detached u)
    | .deleteEntry _ => none

/-- State of a listener connection: the registry it maintains, the events
emitted so far and whether `conn.end()` was called. -/
structure ListenerState where
  devices : Registry
  events : List LEvent
  ended : Bool
deriving DecidableEq

/-- The listener's `onMsgComplete` handler (src/lib/usbmux.ts lines
264-288): a nonzero Result emits an error and ends the connection; an
Attached message stores the descriptor under its SerialNumber and emits
"attached"; a Detached message runs the registry sweep. -/
def listenerOnMsgComplete (st : ListenerState) (msg : UsbMuxPlist) : ListenerState :=
  match msg with
  | .Result n =>
    if n ≠ 0 then
      { st with events := st.events ++ [LEvent.errorEv (mkUsbmuxdError "Listen failed" n)],
                ended := true }
    else st
  | .Attached _ props =>
    { st with devices := insertOrReplace st.devices props.SerialNumber props,
              events := st.events ++ [LEvent.attached props.SerialNumber] }
  | .Detached _ did =>
    { st with devices := (detachSweep did st.devices).1,
              events := st.events ++ detachedEvents (detachSweep did st.devices).2 }

/-- State of the tunnel connection opened by `connect` (src/lib/usbmux.ts
lines 303-336): whether the `data` listener running the protocol parser is
still attached, whether `conn.end()` was called, and how the promise was
settled (`Except.ok ()` stands for `resolve(conn)`, resolving with the
same raw connection). -/
structure TunnelConn where
  parsing : Bool
  ended : Bool
  settled : Option (Except UsbmuxdError Unit)

/-- A freshly opened tunnel connection: parser attached, not ended, promise
pending. -/
def freshTunnelConn : TunnelConn :=
  { parsing := true, ended := false, settled := none }

/-- The `onMsgComplete` handler inside `connect` (src/lib/usbmux.ts lines
315-327): a Result with code 0 removes the `data` listener and resolves
with the connection; any other message rejects with
`UsbmuxdError("Tunnel failed", msg.Number)` and ends the connection. -/
def connectOnMsgComplete (c : TunnelConn) (msg : UsbMuxPlist) : TunnelConn :=
  match msg with
  | .Result n =>
    if n = 0 then { c with parsing := false, settled := some (Except.ok ()) }
    else { c with settled := some (Except.error (mkUsbmuxdError "Tunnel failed" n)),
                  ended := true }
  | m =>
    { c with settled := some (Except.error (mkUsbmuxdError "Tunnel failed" m.number)),
             ended := true }

/-- JS truthiness of the optional pinned UDID: both `undefined` and the
empty string are falsy. -/
def jsTruthyUdid : Option String → Option String
  | none => none
  | some s => if s = "" then none else some s

/-- Synchronous outcome of the Relay's per-connection handler: the error
event emitted (if any), whether the local connection was ended, and the
`(deviceID, devicePort)` pair passed to `connect` when a tunnel was
initiated. -/
structure HandlerResult where
  errorEmitted : Option String
  connEnded : Bool
  tunnelRequest : Option (Nat × Nat)
deriving DecidableEq

/-- Relay `_handler` (src/lib/usbmux.ts lines 440-460): empty registry or a
pinned-but-absent UDID emit an error and end the connection without calling
`connect`; otherwise the device is `devices[this._udid || Object.keys(devices)[0]]`
— the pinned entry, or the first entry in insertion order — and `connect`
is invoked with its `DeviceID` and the relay's device port.  The inner
`match reg with | [] => ...` arm is unreachable: that branch runs only when
the registry is nonempty. -/
def relayHandler (udid : Option String) (devicePort : Nat) (reg : Registry) : HandlerResult :=
  if reg.length = 0 then
    { errorEmitted := some "No devices connected", connEnded := true, tunnelRequest := none }
  else
    match jsTruthyUdid udid with
    | some u =>
      match regLookup reg u with
      | none =>
        { errorEmitted := some "Requested device not connected", connEnded := true,
          tunnelRequest := none }
      | some d =>
        { errorEmitted := none, connEnded := false,
          tunnelRequest := some (d.DeviceID, devicePort) }
    | none =>
      match reg with
      | [] => { errorEmitted := none, connEnded := false, tunnelRequest := none }
      | (_, d) :: _ =>
        { errorEmitted := none, connEnded := false,
          tunnelRequest := some (d.DeviceID, devicePort) }

/-- Outcome of the `findDevice` timeout callback (src/lib/usbmux.ts lines
497-502): the listener is ended and the promise rejected. -/
structure FindTimeoutResult where
  listenerEnded : Bool
  rejectedWith : String
deriving DecidableEq

/-- The `findDevice` timer callback: `listener.end()`, then reject with the
pinned-specific message when `opts.udid` is truthy and the generic message
otherwise. -/
def findDeviceOnTimeout (udid : Option String) : FindTimeoutResult :=
  { listenerEnded := true
    rejectedWith :=
      match jsTruthyUdid udid with
      | some _ => "Requested device not connected"
      | none => "No devices connected" }

theorem uint32le_length (n : Nat) : (uint32le n).length = 4 := rfl

theorem packHeader_length (plen : Nat) : (packHeader plen).length = 16 := rfl

theorem pack_ne_nil (p : List Nat) : pack p ≠ [] := by
  simp [pack, packHeader, uint32le]

theorem readUInt32LE_uint32le (n : Nat) (r : List Nat) :
    readUInt32LE (uint32le n ++ r) = some (n % 2 ^ 32) := by
  simp only [uint32le, List.cons_append, List.nil_append, readUInt32LE, Option.some.injEq]
  omega

/-- A chunk delivered while a message body is in progress (`len` nonzero)
and not exceeding the remaining length is appended whole to the message;
the callback fires exactly when the remaining length is used up. -/
theorem parseFuel_body_chunk (fuel n : Nat) (acc c : List Nat) (hn : n ≠ 0)
    (hc : c.length ≤ n) :
    parseFuel (fuel + 1) ⟨n, acc⟩ c
      = some (⟨n - c.length, acc ++ c⟩, if n - c.length = 0 then [acc ++ c] else []) := by
  have htake : c.take n = c := List.take_of_length_le hc
  simp only [parseFuel, hn, if_false, htake, List.drop_length, ite_true, if_pos rfl]

/-- One reduction step of the parser on a fresh-message state, spelled out:
with `len` zero the closure takes the header branch.  Holds by definitional
unfolding. -/
theorem parseFuel_succ_new (fuel : Nat) (m data : List Nat) :
    parseFuel (fuel + 1) ⟨0, m⟩ data
      = match readUInt32LE data with
        | none => none
        | some total =>
          let len0 := total - 16
          let rest0 := data.drop 16
          if rest0 = [] then some (⟨len0, []⟩, [])
          else
            let body := rest0.take len0
            let len1 := len0 - body.length
            let outs : List (List Nat) := if len1 = 0 then [body] else []
            let rest1 := rest0.drop body.length
            if rest1 = [] then some (⟨len1, body⟩, outs)
            else
              match parseFuel fuel ⟨len1, body⟩ rest1 with
              | none => none
              | some (st2, outs2) => some (st2, outs ++ outs2) := rfl

/-- A chunk that starts a new message and consists of the 16-byte header of
a frame with body length `plen` plus a proper initial part of the body is
consumed without firing the callback; the parser is left waiting for the
remaining `plen - r0.length` bytes. -/
theorem parseFuel_header_chunk (fuel plen : Nat) (m r0 : List Nat)
    (hlen : plen + 16 < 2 ^ 32) (hlt : r0.length < plen) :
    parseFuel (fuel + 1) ⟨0, m⟩ (packHeader plen ++ r0)
      = some (⟨plen - r0.length, r0⟩, []) := by
  have hread : readUInt32LE (packHeader plen ++ r0) = some (plen + 16) := by
    rw [packHeader, List.append_assoc, List.append_assoc, List.append_assoc,
      readUInt32LE_uint32le, Nat.mod_eq_of_lt hlen]
  have hdrop : (packHeader plen ++ r0).drop 16 = r0 := List.drop_left' (packHeader_length plen)
  rw [parseFuel_succ_new, hread]
  dsimp only
  rw [hdrop, Nat.add_sub_cancel]
  rcases eq_or_ne r0 [] with h0 | h0
  · rw [if_pos h0, h0]
    simp
  · rw [if_neg h0, List.take_of_length_le (Nat.le_of_lt hlt), List.drop_length]
    have hn0 : ¬(plen - r0.length = 0) := by omega
    rw [if_neg hn0]
    simp

/-- A chunk that starts with one complete frame for payload `p`: the
callback fires once with `p`, and parsing continues on the remaining bytes
with the message length reset to zero. -/
theorem parseFuel_pack (fuel : Nat) (m p tail : List Nat) (hp : p ≠ [])
    (hlen : p.length + 16 < 2 ^ 32) :
    parseFuel (fuel + 1) ⟨0, m⟩ (pack p ++ tail)
      = if tail = [] then some (⟨0, p⟩, [p])
        else Option.map (fun r => (r.1, p :: r.2)) (parseFuel fuel ⟨0, p⟩ tail) := by
  have hread : readUInt32LE (pack p ++ tail) = some (p.length + 16) := by
    rw [pack, packHeader, List.append_assoc, List.append_assoc, List.append_assoc,
      List.append_assoc, readUInt32LE_uint32le, Nat.mod_eq_of_lt hlen]
  have hdrop : (pack p ++ tail).drop 16 = p ++ tail := by
    rw [pack, List.append_assoc]
    exact List.drop_left' (packHeader_length p.length)
  have hne : ¬(p ++ tail = []) := by simp [hp]
  rw [parseFuel_succ_new, hread]
  dsimp only
  rw [hdrop, Nat.add_sub_cancel, if_neg hne, List.take_left, Nat.sub_self, List.drop_left]
  rcases eq_or_ne tail [] with ht | ht
  · rw [if_pos ht, if_pos ht]
    simp
  · rw [if_neg ht, if_neg ht]
    rcases hrec : parseFuel fuel ⟨0, p⟩ tail with _ | ⟨st2, outs2⟩ <;> simp [hrec]

/-- Feeding one complete frame as a single data event fires the callback
once with the payload; the state the closure started with (any previous
completed message text and zero remaining length) does not matter. -/
theorem parse_pack (m p : List Nat) (hp : p ≠ []) (hlen : p.length + 16 < 2 ^ 32) :
    parse ⟨0, m⟩ (pack p) = some (⟨0, p⟩, [p]) := by
  have h := parseFuel_pack (pack p).length m p [] hp hlen
  simpa [parse] using h

/-- Feeding the remaining body of a message split into arbitrary nonempty
chunks: the callback fires exactly once, with the full accumulated message,
when the last byte arrives. -/
theorem feed_body (cs : List (List Nat)) (acc : List Nat) (n : Nat)
    (hne : ∀ c ∈ cs, c ≠ []) (hn : n ≠ 0) (hlen : cs.flatten.length = n) :
    feed ⟨n, acc⟩ cs = some (⟨0, acc ++ cs.flatten⟩, [acc ++ cs.flatten]) := by
  induction cs generalizing acc n with
  | nil =>
    simp at hlen
    omega
  | cons c cs ih =>
    have hflat : (c :: cs).flatten = c ++ cs.flatten := by simp
    have hlen' : c.length + cs.flatten.length = n := by
      rw [hflat] at hlen
      simpa using hlen
    have hc : c.length ≤ n := by omega
    have hparse : parse ⟨n, acc⟩ c
        = some (⟨n - c.length, acc ++ c⟩, if n - c.length = 0 then [acc ++ c] else []) := by
      have := parseFuel_body_chunk c.length n acc c hn hc
      simpa [parse] using this
    rcases eq_or_ne cs [] with hcs | hcs
    · subst hcs
      have hcl : n - c.length = 0 := by simp at hlen'; omega
      simp [feed, hparse, hcl, hflat]
    · have hflcs : cs.flatten ≠ [] := by
        rcases cs with _ | ⟨c', cs'⟩
        · exact absurd rfl hcs
        · have : c' ≠ [] := hne c' (by simp)
          simp [this]
      have hflpos : 0 < cs.flatten.length := List.length_pos.mpr hflcs
      have hcl : n - c.length ≠ 0 := by omega
      have ihres := ih (acc ++ c) (n - c.length) (fun x hx => hne x (by simp [hx])) hcl
        (by omega)
      simp [feed, hparse, hcl, ihres, hflat]

/-- Claim C1 counterexample.  The specification claims the parser handles
any chunk boundaries including 1-byte chunks.  It does not: the very first
1-byte data event makes the parser call `data.readUInt32LE(0)` on a 1-byte
buffer, which throws ERR_OUT_OF_RANGE (modelled as `none`); the completion
callback is never invoked with the message, let alone exactly once. -/
theorem c1_counterexample_one_byte_chunks :
    feed ⟨0, []⟩ (oneByteChunks (pack [60, 97, 62])) = none := by decide

/-- Claim C1, amended: for every message produced by the frame builder,
feeding its bytes to the parser split at any chunk boundaries that leave
the 16-byte header inside the first chunk (the unsplit whole included)
invokes the completion callback exactly once, with the message payload
that the opaque plist codec then decodes back to the original object.
Boundaries splitting the header (such as 1-byte chunks) are excluded: on
those the parser throws or misparses. -/
theorem c1_amended_chunked_delivery (p c0 : List Nat) (cs : List (List Nat))
    (hp : p ≠ []) (hlen : p.length + 16 < 2 ^ 32)
    (h16 : 16 ≤ c0.length)
    (hne : ∀ c ∈ c0 :: cs, c ≠ [])
    (hjoin : (c0 :: cs).flatten = pack p) :
    feed ⟨0, []⟩ (c0 :: cs) = some (⟨0, p⟩, [p]) := by
  have hjoin' : c0 ++ cs.flatten = pack p := by simpa using hjoin
  have htk : c0.take 16 = packHeader p.length := by
    have ha : (c0 ++ cs.flatten).take 16 = c0.take 16 := List.take_append_of_le_length h16
    rw [hjoin'] at ha
    rw [← ha, pack]
    exact List.take_left' (packHeader_length p.length)
  have hc0 : c0 = packHeader p.length ++ c0.drop 16 := by
    conv_lhs => rw [← List.take_append_drop 16 c0]
    rw [htk]
  have hsplit : c0.drop 16 ++ cs.flatten = p := by
    have hx : packHeader p.length ++ (c0.drop 16 ++ cs.flatten) = packHeader p.length ++ p := by
      rw [← List.append_assoc, ← hc0, hjoin', pack]
    exact List.append_cancel_left hx
  have hsplitlen : (c0.drop 16).length + cs.flatten.length = p.length := by
    rw [← hsplit]; simp
  rcases eq_or_ne cs.flatten [] with hflat | hflat
  · have hcs : cs = [] := by
      have hall := List.flatten_eq_nil_iff.mp hflat
      rcases cs with _ | ⟨c', cs'⟩
      · rfl
      · exact absurd (hall c' (by simp)) (hne c' (by simp))
    subst hcs
    have hc0p : c0 = pack p := by simpa using hjoin'
    simp [feed, hc0p, parse_pack [] p hp hlen]
  · have hflpos : 0 < cs.flatten.length := List.length_pos.mpr hflat
    have hlt : (c0.drop 16).length < p.length := by omega
    have hparse : parse ⟨0, []⟩ c0 = some (⟨p.length - (c0.drop 16).length, c0.drop 16⟩, []) := by
      conv_lhs => rw [parse, hc0]
      exact parseFuel_header_chunk _ p.length [] (c0.drop 16) hlen hlt
    have hn : p.length - (c0.drop 16).length ≠ 0 := by omega
    have hfeed := feed_body cs (c0.drop 16) (p.length - (c0.drop 16).length)
      (fun x hx => hne x (by simp [hx])) hn (by omega)
    rw [hsplit] at hfeed
    simp only [feed]
    rw [hparse]
    dsimp only
    rw [hfeed]
    simp

/-- Witness for C1 (amended) at a concrete frame split into a 17-byte first
chunk (header plus one body byte) and the remaining 2-byte chunk. -/
theorem c1_amended_chunked_delivery_witness :
    feed ⟨0, []⟩ [(pack [60, 97, 62]).take 17, (pack [60, 97, 62]).drop 17]
      = some (⟨0, [60, 97, 62]⟩, [[60, 97, 62]]) := by
  have h := c1_amended_chunked_delivery [60, 97, 62] ((pack [60, 97, 62]).take 17)
    [(pack [60, 97, 62]).drop 17] (by decide) (by decide) (by decide)
    (by decide) (by decide)
  exact h

/-- Claim C2: concatenating the encoded bytes of two messages and feeding
them to the parser as a single data event invokes the completion callback
exactly twice, first with the first payload and then with the second. -/
theorem c2_two_messages_one_chunk (p1 p2 : List Nat) (h1 : p1 ≠ []) (h2 : p2 ≠ [])
    (hl1 : p1.length + 16 < 2 ^ 32) (hl2 : p2.length + 16 < 2 ^ 32) :
    feed ⟨0, []⟩ [pack p1 ++ pack p2] = some (⟨0, p2⟩, [p1, p2]) := by
  have hne2 : pack p2 ≠ [] := pack_ne_nil p2
  have hstep : parse ⟨0, []⟩ (pack p1 ++ pack p2)
      = Option.map (fun r => (r.1, p1 :: r.2))
          (parseFuel (pack p1 ++ pack p2).length ⟨0, p1⟩ (pack p2)) := by
    have h := parseFuel_pack (pack p1 ++ pack p2).length [] p1 (pack p2) h1 hl1
    rw [parse, h, if_neg hne2]
  have hpos : 0 < (pack p1 ++ pack p2).length :=
    List.length_pos.mpr (fun h => pack_ne_nil p1 (List.append_eq_nil.mp h).1)
  obtain ⟨k, hk⟩ := Nat.exists_eq_succ_of_ne_zero hpos.ne'
  have hinner : parseFuel (pack p1 ++ pack p2).length ⟨0, p1⟩ (pack p2)
      = some (⟨0, p2⟩, [p2]) := by
    rw [hk]
    have h := parseFuel_pack k p1 p2 [] h2 hl2
    simpa using h
  simp only [feed]
  rw [hstep, hinner]
  simp

/-- Witness for C2 at two concrete frames fed as one chunk. -/
theorem c2_two_messages_one_chunk_witness :
    feed ⟨0, []⟩ [pack [60] ++ pack [61]] = some (⟨0, [61]⟩, [[60], [61]]) :=
  c2_two_messages_one_chunk [60] [61] (by decide) (by decide) (by decide) (by decide)

theorem regLookup_insertOrReplace_self (l : Registry) (k : String) (v : Device) :
    regLookup (insertOrReplace l k v) k = some v := by
  induction l with
  | nil => simp [insertOrReplace, regLookup]
  | cons hd tl ih =>
    rcases hd with ⟨k', v'⟩
    by_cases h : k' = k <;> simp [insertOrReplace, regLookup, h, ih]

theorem mem_insertOrReplace_self (l : Registry) (k : String) (v : Device) :
    (k, v) ∈ insertOrReplace l k v := by
  induction l with
  | nil => simp [insertOrReplace]
  | cons hd tl ih =>
    rcases hd with ⟨k', v'⟩
    by_cases h : k' = k <;> simp [insertOrReplace, h, ih]

theorem mem_keys_insertOrReplace (l : Registry) (k a : String) (v : Device)
    (h : a ∈ (insertOrReplace l k v).map Prod.fst) :
    a ∈ l.map Prod.fst ∨ a = k := by
  induction l with
  | nil =>
    simp only [insertOrReplace, List.map_cons, List.map_nil, List.mem_cons,
      List.not_mem_nil, or_false] at h
    exact Or.inr h
  | cons hd tl ih =>
    rcases hd with ⟨k', v'⟩
    by_cases hk : k' = k
    · subst hk
      simp only [insertOrReplace, eq_self_iff_true, ite_true, List.map_cons,
        List.mem_cons] at h
      rcases h with h | h
      · exact Or.inr h
      · exact Or.inl (by simp only [List.map_cons, List.mem_cons]; exact Or.inr h)
    · simp only [insertOrReplace, hk, ite_false, if_neg hk, List.map_cons,
        List.mem_cons] at h
      rcases h with h | h
      · exact Or.inl (by simp only [List.map_cons, List.mem_cons]; exact Or.inl h)
      · rcases ih h with h' | h'
        · exact Or.inl (by simp only [List.map_cons, List.mem_cons]; exact Or.inr h')
        · exact Or.inr h'

theorem nodup_keys_insertOrReplace (l : Registry) (k : String) (v : Device)
    (hnd : (l.map Prod.fst).Nodup) :
    ((insertOrReplace l k v).map Prod.fst).Nodup := by
  induction l with
  | nil => simp [insertOrReplace]
  | cons hd tl ih =>
    rcases hd with ⟨k', v'⟩
    simp only [List.map_cons, List.nodup_cons] at hnd
    by_cases hk : k' = k
    · subst hk
      simpa [insertOrReplace] using hnd
    · have htl := ih hnd.2
      simp only [insertOrReplace, hk, ite_false, if_neg hk, List.map_cons, List.nodup_cons]
      refine ⟨fun hmem => ?_, htl⟩
      rcases mem_keys_insertOrReplace tl k k' v hmem with h | h
      · exact hnd.1 h
      · exact hk h

theorem keys_detachSweep_subset (did : Nat) (l : Registry) (a : String)
    (h : a ∈ ((detachSweep did l).1).map Prod.fst) :
    a ∈ l.map Prod.fst := by
  induction l with
  | nil => simp [detachSweep] at h
  | cons hd tl ih =>
    rcases hd with ⟨k, e⟩
    by_cases hED : e.DeviceID = did
    · simp only [detachSweep, hED, ite_true, if_pos hED] at h
      exact List.mem_cons_of_mem _ (ih h)
    · simp only [detachSweep, hED, ite_false, if_neg hED, List.map_cons, List.mem_cons] at h
      rcases h with h | h
      · simp [h]
      · exact List.mem_cons_of_mem _ (ih h)

theorem regLookup_eq_none_of_not_mem (l : Registry) (s : String)
    (h : s ∉ l.map Prod.fst) : regLookup l s = none := by
  induction l with
  | nil => rfl
  | cons hd tl ih =>
    rcases hd with ⟨k, e⟩
    simp only [List.map_cons, List.mem_cons, not_or] at h
    simp [regLookup, Ne.symm h.1, ih h.2]

/-- After the sweep for a session handle, no entry survives under a key that
was mapped (uniquely) to a device with that handle. -/
theorem regLookup_detachSweep_none (did : Nat) (l : Registry) (s : String) (d : Device)
    (hnd : (l.map Prod.fst).Nodup) (hlook : regLookup l s = some d)
    (hdid : d.DeviceID = did) :
    regLookup (detachSweep did l).1 s = none := by
  induction l with
  | nil => simp [regLookup] at hlook
  | cons hd tl ih =>
    rcases hd with ⟨k, e⟩
    simp only [List.map_cons, List.nodup_cons] at hnd
    by_cases hks : k = s
    · subst hks
      have he : e = d := by simpa [regLookup] using hlook
      subst he
      simp only [detachSweep, hdid, ite_true, if_pos hdid]
      exact regLookup_eq_none_of_not_mem _ _
        (fun hmem => hnd.1 (keys_detachSweep_subset did tl k hmem))
    · have hlook' : regLookup tl s = some d := by
        simpa [regLookup, hks] using hlook
      by_cases hED : e.DeviceID = did
      · simp only [detachSweep, hED, ite_true, if_pos hED]
        exact ih hnd.2 hlook'
      · simp only [detachSweep, hED, ite_false, if_neg hED]
        simp [regLookup, hks, ih hnd.2 hlook']

/-- In the sweep trace, the "detached" emission for a matching entry
appears immediately before the deletion of that entry. -/
theorem detachSweep_infix (did : Nat) (l : Registry) (s : String) (d : Device)
    (hmem : (s, d) ∈ l) (hdid : d.DeviceID = did) :
    List.IsInfix [MicroAction.emitDetached d.SerialNumber, MicroAction.deleteEntry s]
      (detachSweep did l).2 := by
  induction l with
  | nil => simp at hmem
  | cons hd tl ih =>
    rcases hd with ⟨k, e⟩
    rcases List.mem_cons.mp hmem with heq | hmem'
    · obtain ⟨rfl, rfl⟩ := Prod.mk.inj heq.symm
      simp only [detachSweep, hdid, ite_true, if_pos hdid]
      exact ⟨[], (detachSweep did tl).2, by simp⟩
    · have hinf := ih hmem'
      by_cases hED : e.DeviceID = did
      · simp only [detachSweep, hED, ite_true, if_pos hED]
        exact hinf.trans ((List.suffix_cons _ _).trans (List.suffix_cons _ _)).isInfix
      · simpa only [detachSweep, hED, ite_false, if_neg hED] using hinf

/-- Claim C3: the tunnel connector's handler on the awaited Result message.
A zero code removes the protocol parser from the connection and resolves
the promise with that same raw connection, leaving it open; a nonzero code
rejects with a protocol error carrying the code and ends the connection.
The deviceID and port of the request do not enter this decision; they only
shape the Connect frame (see the C5 theorem). -/
theorem c3_connect_result_handling (n : Nat) :
    connectOnMsgComplete freshTunnelConn (UsbMuxPlist.Result n)
      = (if n = 0 then
          { parsing := false, ended := false, settled := some (Except.ok ()) }
         else
          { parsing := true, ended := true,
            settled := some (Except.error (mkUsbmuxdError "Tunnel failed" n)) }) ∧
    (mkUsbmuxdError "Tunnel failed" n).number = if n = 0 then none else some n := by
  constructor
  · by_cases h : n = 0 <;> simp [connectOnMsgComplete, freshTunnelConn, h]
  · by_cases h : n = 0 <;> simp [mkUsbmuxdError, h]

/-- Claim C4: an Attached notification for descriptor D followed by a
Detached notification carrying D's session handle leaves the registry with
no entry under D's UDID; within the Detached sweep the "detached" emission
for D's UDID occurs immediately before the deletion of D's entry, and the
resulting event log contains the "detached" event for D's UDID. -/
theorem c4_attach_detach_removes (st0 : ListenerState) (D : Device) (n m : Nat)
    (hnd : (st0.devices.map Prod.fst).Nodup) :
    regLookup (listenerOnMsgComplete (listenerOnMsgComplete st0 (UsbMuxPlist.Attached n D))
        (UsbMuxPlist.Detached m D.DeviceID)).devices D.SerialNumber = none ∧
    List.IsInfix
      [MicroAction.emitDetached D.SerialNumber, MicroAction.deleteEntry D.SerialNumber]
      (detachSweep D.DeviceID
        (listenerOnMsgComplete st0 (UsbMuxPlist.Attached n D)).devices).2 ∧
    LEvent.detached D.SerialNumber
      ∈ (listenerOnMsgComplete (listenerOnMsgComplete st0 (UsbMuxPlist.Attached n D))
          (UsbMuxPlist.Detached m D.DeviceID)).events := by
  have hdev1 : (listenerOnMsgComplete st0 (UsbMuxPlist.Attached n D)).devices
      = insertOrReplace st0.devices D.SerialNumber D := rfl
  have hnd1 : ((insertOrReplace st0.devices D.SerialNumber D).map Prod.fst).Nodup :=
    nodup_keys_insertOrReplace st0.devices D.SerialNumber D hnd
  have hlook1 : regLookup (insertOrReplace st0.devices D.SerialNumber D) D.SerialNumber
      = some D := regLookup_insertOrReplace_self st0.devices D.SerialNumber D
  have hmem1 : (D.SerialNumber, D) ∈ insertOrReplace st0.devices D.SerialNumber D :=
    mem_insertOrReplace_self st0.devices D.SerialNumber D
  have hinf := detachSweep_infix D.DeviceID (insertOrReplace st0.devices D.SerialNumber D)
    D.SerialNumber D hmem1 rfl
  refine ⟨?_, ?_, ?_⟩
  · show regLookup (detachSweep D.DeviceID
        (insertOrReplace st0.devices D.SerialNumber D)).1 D.SerialNumber = none
    exact regLookup_detachSweep_none D.DeviceID _ D.SerialNumber D hnd1 hlook1 rfl
  · rw [hdev1]
    exact hinf
  · have hemit : MicroAction.emitDetached D.SerialNumber
        ∈ (detachSweep D.DeviceID (insertOrReplace st0.devices D.SerialNumber D)).2 :=
      hinf.sublist.subset (by simp)
    have hev : LEvent.detached D.SerialNumber
        ∈ detachedEvents (detachSweep D.DeviceID
            (insertOrReplace st0.devices D.SerialNumber D)).2 := by
      rw [detachedEvents]
      exact List.mem_filterMap.mpr ⟨MicroAction.emitDetached D.SerialNumber, hemit, rfl⟩
    show LEvent.detached D.SerialNumber
        ∈ (listenerOnMsgComplete st0 (UsbMuxPlist.Attached n D)).events
            ++ detachedEvents (detachSweep D.DeviceID
                (insertOrReplace st0.devices D.SerialNumber D)).2
    exact List.mem_append_right _ hev

/-- Witness for C4 at a concrete empty starting state and device. -/
theorem c4_attach_detach_removes_witness :
    regLookup (listenerOnMsgComplete (listenerOnMsgComplete ⟨[], [], false⟩
        (UsbMuxPlist.Attached 0 ⟨"USB", 7, 0, 4776, "ABC"⟩))
        (UsbMuxPlist.Detached 0 (Device.DeviceID ⟨"USB", 7, 0, 4776, "ABC"⟩))).devices
      (Device.SerialNumber ⟨"USB", 7, 0, 4776, "ABC"⟩) = none ∧
    List.IsInfix
      [MicroAction.emitDetached (Device.SerialNumber ⟨"USB", 7, 0, 4776, "ABC"⟩),
        MicroAction.deleteEntry (Device.SerialNumber ⟨"USB", 7, 0, 4776, "ABC"⟩)]
      (detachSweep (Device.DeviceID ⟨"USB", 7, 0, 4776, "ABC"⟩)
        (listenerOnMsgComplete ⟨[], [], false⟩
          (UsbMuxPlist.Attached 0 ⟨"USB", 7, 0, 4776, "ABC"⟩)).devices).2 ∧
    LEvent.detached (Device.SerialNumber ⟨"USB", 7, 0, 4776, "ABC"⟩)
      ∈ (listenerOnMsgComplete (listenerOnMsgComplete ⟨[], [], false⟩
          (UsbMuxPlist.Attached 0 ⟨"USB", 7, 0, 4776, "ABC"⟩))
          (UsbMuxPlist.Detached 0 (Device.DeviceID ⟨"USB", 7, 0, 4776, "ABC"⟩))).events :=
  c4_attach_detach_removes ⟨[], [], false⟩ ⟨"USB", 7, 0, 4776, "ABC"⟩ 0 0 (by simp)

/-- Claim C5: the Connect frame's port field carries the byte-swapped form
of the requested 16-bit port: its low byte is the port's high byte and its
high byte is the port's low byte, i.e. the field holds the big-endian
(network-order) reading of the port, swapped relative to the little-endian
header encoding. -/
theorem c5_connect_port_byteswap (deviceID port : Nat) (h : port < 2 ^ 16) :
    (connectRequest deviceID port).PortNumber = byteSwap16 port ∧
    byteSwap16 port % 256 = port / 256 ∧
    byteSwap16 port / 256 = port % 256 ∧
    byteSwap16 port < 2 ^ 16 := by
  refine ⟨rfl, ?_, ?_, ?_⟩ <;> (unfold byteSwap16; omega)

/-- Witness for C5 at deviceID 1 and port 48879. -/
theorem c5_connect_port_byteswap_witness :
    (connectRequest 1 48879).PortNumber = byteSwap16 48879 ∧
    byteSwap16 48879 % 256 = 48879 / 256 ∧
    byteSwap16 48879 / 256 = 48879 % 256 ∧
    byteSwap16 48879 < 2 ^ 16 :=
  c5_connect_port_byteswap 1 48879 (by decide)

/-- Claim C6: a local connection handled while the registry is empty makes
the relay emit an error and end the connection, and no tunnel request is
ever issued to the daemon. -/
theorem c6_empty_registry_error (udid : Option String) (devicePort : Nat) :
    relayHandler udid devicePort []
      = { errorEmitted := some "No devices connected", connEnded := true,
          tunnelRequest := none } := by
  simp [relayHandler]

/-- Claim C7: device selection in the relay's per-connection handler.  With
no pinned UDID the tunnel goes to the first registry entry in insertion
order (the earliest-attached device still present, since the Attached
handler appends new keys and the Detached sweep preserves relative order);
with a pinned UDID present in the registry the tunnel goes to the pinned
device. -/
theorem c7_device_selection (devicePort : Nat) (k : String) (d : Device) (rest : Registry)
    (u : String) (reg : Registry) (d' : Device)
    (hu : u ≠ "") (hl : regLookup reg u = some d') :
    relayHandler none devicePort ((k, d) :: rest)
      = { errorEmitted := none, connEnded := false,
          tunnelRequest := some (d.DeviceID, devicePort) } ∧
    relayHandler (some u) devicePort reg
      = { errorEmitted := none, connEnded := false,
          tunnelRequest := some (d'.DeviceID, devicePort) } := by
  constructor
  · simp [relayHandler, jsTruthyUdid]
  · have hne : reg ≠ [] := by
      intro h
      subst h
      simp [regLookup] at hl
    have hlen : reg.length ≠ 0 := by simpa using hne
    simp [relayHandler, jsTruthyUdid, hu, hlen, hl]

/-- Witness for C7 at concrete registries. -/
theorem c7_device_selection_witness :
    relayHandler none 2222 [("A", ⟨"USB", 3, 0, 1, "A"⟩)]
      = { errorEmitted := none, connEnded := false, tunnelRequest := some (3, 2222) } ∧
    relayHandler (some "B") 2222 [("B", ⟨"USB", 9, 0, 1, "B"⟩)]
      = { errorEmitted := none, connEnded := false, tunnelRequest := some (9, 2222) } := by
  have h := c7_device_selection 2222 "A" ⟨"USB", 3, 0, 1, "A"⟩ [] "B"
    [("B", ⟨"USB", 9, 0, 1, "B"⟩)] ⟨"USB", 9, 0, 1, "B"⟩ (by decide)
    (by simp [regLookup])
  exact h

/-- Claim C8: when the findDevice timer expires, the listener is ended and
the operation is rejected with the pinned-specific message if a UDID was
pinned, and with the generic no-devices message otherwise. -/
theorem c8_find_device_timeout (u : String) (hu : u ≠ "") :
    findDeviceOnTimeout (some u)
      = { listenerEnded := true, rejectedWith := "Requested device not connected" } ∧
    findDeviceOnTimeout none
      = { listenerEnded := true, rejectedWith := "No devices connected" } := by
  constructor <;> simp [findDeviceOnTimeout, jsTruthyUdid, hu]

/-- Witness for C8 at the pinned UDID "ABC". -/
theorem c8_find_device_timeout_witness :
    findDeviceOnTimeout (some "ABC")
      = { listenerEnded := true, rejectedWith := "Requested device not connected" } ∧
    findDeviceOnTimeout none
      = { listenerEnded := true, rejectedWith := "No devices connected" } :=
  c8_find_device_timeout "ABC" (by decide)

/-- Claim C9: byteSwap16 maps 16-bit values to 16-bit values and is an
involution on them. -/
theorem c9_byteswap_involution (v : Nat) (h : v < 2 ^ 16) :
    byteSwap16 (byteSwap16 v) = v ∧ byteSwap16 v < 2 ^ 16 := by
  have h2 : v / 256 < 256 := by omega
  have h3 : byteSwap16 v = v % 256 * 256 + v / 256 := by
    unfold byteSwap16
    omega
  constructor
  · rw [h3]
    unfold byteSwap16
    have h4 : (v % 256 * 256 + v / 256) % 256 = v / 256 := by omega
    have h5 : (v % 256 * 256 + v / 256) / 256 = v % 256 := by omega
    rw [h4, h5]
    omega
  · rw [h3]
    omega

/-- Witness for C9 at v = 48879. -/
theorem c9_byteswap_involution_witness :
    byteSwap16 (byteSwap16 48879) = 48879 ∧ byteSwap16 48879 < 2 ^ 16 :=
  c9_byteswap_involution 48879 (by decide)

/-- Claim C10: a discovery timeout of 0 and an omitted timeout both arm the
Relay watchdog timer and the findDevice timer with the default 1000. -/
theorem c10_zero_timeout_default (t : Option Nat) (u : Option String)
    (h : t = none ∨ t = some 0) :
    relayWatchdogDelay { timeout := t, udid := u } = 1000 ∧
    findDeviceDelay { timeout := t, udid := u } = 1000 := by
  rcases h with h | h <;> subst h <;>
    simp [relayWatchdogDelay, relayConstructorTimeout, startListenerDelay,
      findDeviceDelay, jsOrDefault]

/-- Witness for C10 at an explicit zero timeout. -/
theorem c10_zero_timeout_default_witness :
    relayWatchdogDelay { timeout := some 0, udid := none } = 1000 ∧
    findDeviceDelay { timeout := some 0, udid := none } = 1000 :=
  c10_zero_timeout_default (some 0) none (Or.inr rfl)

end Usbmux
